import Mathlib

/-!
Verification of the bounded, resumable web crawler in `web_scraper.py`.

The development shallowly embeds the crawler's core: the scope filter
`is_valid_url`, the link extractor `extract_links`, the checkpoint store
(`save_progress` / `load_progress`), the per-page handler `scrape_webpage`,
the breadth-first controller loop `crawl`, and the constructor's file-system
side effects (`initScraper`).  External collaborators (HTTP transport, HTML
parsing, the Python standard library's URL utilities) are modelled at their
interface boundary: the fetch-and-extract collaborator becomes an oracle
`Nat -> FetchResult` consumed one entry per dispatched fetch, and
`urlparse` / `urljoin` are executable models of the stdlib functions
restricted to the absolute-http URL shapes this program handles.

Machine-level side effects that the claims do not touch (politeness sleeps,
logging, text output) are dropped; everything the claims quantify over
(visited set, frontier queue, checkpoint record, the sequence of URLs passed
to the fetch step) is threaded explicitly through `CrawlState`, including a
ghost log `fetched` recording every dispatch of `session.get`.
-/

/-! ## String-operation models (Python `in`, `endswith`, `lower`, `split`) -/

/-- Occurrence of `pat` as a contiguous sublist of the second argument,
modelling Python's `pat in s` on strings. -/
def strContainsAux (pat : List Char) : List Char → Bool
  | [] => List.isPrefixOf pat []
  | c :: rest => List.isPrefixOf pat (c :: rest) || strContainsAux pat rest

/-- Python `pat in s` for strings. -/
def strContains (s pat : String) : Bool :=
  strContainsAux pat.data s.data

/-- Python `s.endswith(suffix)`. -/
def strEndsWith (s suffix : String) : Bool :=
  List.isPrefixOf suffix.data.reverse s.data.reverse

/-- Python `s.lower()` (the URLs handled here are ASCII). -/
def strToLower (s : String) : String :=
  ⟨s.data.map Char.toLower⟩

/-- Python `s.startswith(pre)`. -/
def strStarts (s pre : String) : Bool :=
  List.isPrefixOf pre.data s.data

/-- Helper for `splitFirst`: scan for the first occurrence of `sep`,
returning the characters before it and the characters after it. -/
def splitFirstAux (sep : List Char) (acc : List Char) : List Char → Option (List Char × List Char)
  | [] => none
  | c :: rest =>
    if List.isPrefixOf sep (c :: rest) then
      some (acc.reverse, (c :: rest).drop sep.length)
    else
      splitFirstAux sep (c :: acc) rest

/-- Python `s.split(sep, 1)`: the part before the first occurrence of `sep`
and the part after it (`(s, "")` when `sep` does not occur). -/
def splitFirst (s sep : String) : String × String :=
  match splitFirstAux sep.data [] s.data with
  | none => (s, "")
  | some (a, b) => (⟨a⟩, ⟨b⟩)

/-- Characters of a path up to and including its final slash: the directory
component that `urljoin` resolves relative references against. -/
def dropLastSegment (p : String) : String :=
  ⟨(p.data.reverse.dropWhile (fun c => c ≠ '/')).reverse⟩

/-! ## Model of `urllib.parse` (external collaborator) -/

/-- Result of `urllib.parse.urlparse`: the components the scraper reads. -/
structure UrlParts where
  scheme : String
  netloc : String
  path : String
  query : String
deriving Repr, DecidableEq

/-- Model of `urllib.parse.urlparse` restricted to the URL shapes this
program handles: the fragment is split off at the first `#`, the query at
the first `?`; a URL containing `://` is split into scheme, authority
(up to the first `/`) and path; anything else parses as a bare path. -/
def urlparse (url : String) : UrlParts :=
  let withoutFrag := (splitFirst url "#").1
  let beforeQ := (splitFirst withoutFrag "?").1
  let query := (splitFirst withoutFrag "?").2
  if strContains beforeQ "://" then
    let rest := (splitFirst beforeQ "://").2
    let scheme := (splitFirst beforeQ "://").1
    let netloc := (splitFirst rest "/").1
    let path := if strContains rest "/" then "/" ++ (splitFirst rest "/").2 else ""
    ⟨scheme, netloc, path, query⟩
  else
    ⟨"", "", beforeQ, query⟩

/-- Model of `urllib.parse.urljoin` restricted to the references the
crawler meets: absolute URLs pass through, root-relative references replace
the base's path, other references replace the base's last path segment. -/
def urljoin (base url : String) : String :=
  if url = "" then base
  else if strContains url "://" then url
  else if strStarts url "/" then
    (urlparse base).scheme ++ "://" ++ (urlparse base).netloc ++ url
  else
    (urlparse base).scheme ++ "://" ++ (urlparse base).netloc ++
      dropLastSegment (urlparse base).path ++ url

/-! ## Scope filter (`is_valid_url`, source lines 100-148) -/

/-- File extensions rejected by the scope filter (source line 119). -/
def fileExts : List String :=
  [".doc", ".docx", ".xls", ".xlsx", ".ppt", ".pptx", ".zip", ".rar"]

/-- Documentation-space markers the path must contain (source line 124). -/
def spaceMarkers : List String :=
  ["/display/", "/spaces/"]

/-- Substrings whose presence in the path rejects a URL (source lines 129-133). -/
def pathBlocklist : List String :=
  ["action=edit", "action=history", "oldid=", "diff=",
   "printable=yes", "mobileaction=", "feed=", "redlink=1",
   "/viewpage.action", "attachments", "download"]

/-- Substrings whose presence in the query rejects a URL (source lines
138-141).  The entry `pageId=` is kept verbatim: the source tests it
against the lowercased query, where a capital `I` can never occur. -/
def queryBlocklist : List String :=
  ["view=", "preview=", "diff", "pageId=", "mode=",
   "download=", "type=", "attachment"]

/-- The scope filter `is_valid_url(url, base_url)` (source lines 100-148):
same authority as the base, no document-download extension, a
documentation-space marker in the path, no blocklisted path substring, and
no blocklisted query substring. -/
def is_valid_url (url base_url : String) : Bool :=
  if (urlparse url).netloc ≠ (urlparse base_url).netloc then false
  else if strEndsWith (strToLower (urlparse url).path) ".pdf" then false
  else if fileExts.any (fun ext => strEndsWith (strToLower (urlparse url).path) ext) then false
  else if ¬ (spaceMarkers.any (fun x => strContains (strToLower (urlparse url).path) x) = true) then false
  else if pathBlocklist.any (fun x => strContains (strToLower (urlparse url).path) x) then false
  else if (urlparse url).query ≠ "" ∧
      queryBlocklist.any (fun x => strContains (strToLower (urlparse url).query) x) = true then false
  else true

/-- Link extraction (`extract_links`, source lines 150-164): resolve each
anchor's `href` against the current page, keep those the scope filter
admits, collected into a set (modelled as a deduplicated list). -/
def extract_links (hrefs : List String) (base_url : String) : List String :=
  ((hrefs.map (fun h => urljoin base_url h)).filter (fun u => is_valid_url u base_url)).dedup

/-! ## Checkpoint store (`save_progress` / `load_progress`, source lines 65-98) -/

/-- The JSON checkpoint record written to `_progress/progress.json`. -/
structure ProgressData where
  start_url : String
  visited_urls : List String
  timestamp : Nat
deriving Repr, DecidableEq

/-- `save_progress` (source lines 82-98): serialize the record,
unconditionally overwriting any previous checkpoint. -/
def save_progress (start_url : String) (visited : List String) (ts : Nat) : Option ProgressData :=
  some ⟨start_url, visited, ts⟩

/-- `load_progress` (source lines 65-80): read the stored record and
restore the visited set (Python `set(...)`, modelled by `List.dedup`) only
when the stored `start_url` equals the requested one exactly. -/
def load_progress (file : Option ProgressData) (start_url : String) : Option (List String) :=
  match file with
  | none => none
  | some d => if d.start_url = start_url then some d.visited_urls.dedup else none

/-! ## Crawl state machine (`scrape_webpage` and `crawl`, source lines 199-318) -/

/-- Crawl budget configuration (`max_depth`, `max_pages`). -/
structure Config where
  maxDepth : Nat
  maxPages : Nat
deriving Repr, DecidableEq

/-- Outcome of one dispatched fetch, supplied by the external
fetch-and-parse collaborator: a page (its extracted text and raw anchor
hrefs), an exception of class `Exception` (network error, non-2xx status
via `raise_for_status`, parse error), or an operator `KeyboardInterrupt`
(which is not of class `Exception`). -/
inductive FetchResult where
  | success (content : String) (hrefs : List String)
  | failure
  | interrupt
deriving Repr, DecidableEq

/-- Ghost record of one call to `session.get`: the URL dispatched, the
depth of its frontier entry, and whether the fetch-and-extract succeeded
(the branch that reaches `visited_urls.add`). -/
structure FetchEvent where
  url : String
  depth : Nat
  succeeded : Bool
deriving Repr, DecidableEq

/-- The crawler's mutable state: `visited_urls` (a Python set, kept as a
duplicate-free list), the frontier deque of `(url, depth)` pairs, the
checkpoint file contents, the index of the next oracle entry, and the ghost
log of dispatched fetches. -/
structure CrawlState where
  visited : List String
  queue : List (String × Nat)
  checkpoint : Option ProgressData
  fetchCount : Nat
  fetched : List FetchEvent
deriving Repr, DecidableEq

/-- Result of `scrape_webpage`: a normal return `(content, links)` with the
updated state, or a propagating `KeyboardInterrupt` (the per-page
`except Exception` handler does not catch it). -/
inductive ScrapeResult where
  | ok (content : Option String) (links : List String) (s : CrawlState)
  | interrupted (s : CrawlState)
deriving Repr, DecidableEq

/-- State carried by a `ScrapeResult`. -/
def stateOf : ScrapeResult → CrawlState
  | .ok _ _ s => s
  | .interrupted s => s

/-- `scrape_webpage(url, depth)` (source lines 199-264): return early when
the URL is already visited, or when the depth or page budget is exceeded;
otherwise dispatch the fetch.  On an `Exception` the handler returns
`(None, set())` without touching the visited set; on success the links are
extracted, the content saved, and the URL added to the visited set; a
`KeyboardInterrupt` propagates. -/
def scrape_webpage (cfg : Config) (oracle : Nat → FetchResult) (s : CrawlState)
    (url : String) (depth : Nat) : ScrapeResult :=
  if url ∈ s.visited then .ok none [] s
  else if depth > cfg.maxDepth ∨ s.visited.length ≥ cfg.maxPages then .ok none [] s
  else
    match oracle s.fetchCount with
    | .interrupt =>
      .interrupted
        { s with fetchCount := s.fetchCount + 1,
                 fetched := s.fetched ++ [⟨url, depth, false⟩] }
    | .failure =>
      .ok none []
        { s with fetchCount := s.fetchCount + 1,
                 fetched := s.fetched ++ [⟨url, depth, false⟩] }
    | .success content hrefs =>
      .ok (some content) (extract_links hrefs url)
        { s with fetchCount := s.fetchCount + 1,
                 fetched := s.fetched ++ [⟨url, depth, true⟩],
                 visited := s.visited ++ [url] }

/-- Enqueue the discovered links at `depth + 1`, skipping already-visited
URLs (source lines 296-299); duplicates already sitting in the queue are
not suppressed. -/
def enqueue_links (s : CrawlState) (links : List String) (depth : Nat) : CrawlState :=
  { s with queue := s.queue ++ (links.filter (fun l => l ∉ s.visited)).map (fun l => (l, depth + 1)) }

/-- A synchronous `save_progress(start_url)` call updating the checkpoint
file from the in-memory visited set. -/
def saveNow (start : String) (s : CrawlState) : CrawlState :=
  { s with checkpoint := save_progress start s.visited 0 }

/-- The child-enqueue step guarded by `depth < max_depth` (source line 294). -/
def after_enqueue (cfg : Config) (s : CrawlState) (links : List String) (depth : Nat) : CrawlState :=
  if depth < cfg.maxDepth then enqueue_links s links depth else s

/-- The periodic checkpoint: save every time `len(visited) % 5 == 0`
(source lines 303-304). -/
def maybe_save (start : String) (s : CrawlState) : CrawlState :=
  if s.visited.length % 5 = 0 then saveNow start s else s

/-- Terminal status of a crawl run. -/
inductive CrawlOutcome where
  | completed
  | interrupted
  | fuelOut
deriving Repr, DecidableEq

/-- Result of one pass through the `while` loop: either the loop continues
with a new state, or the crawl finishes with a final state and outcome. -/
inductive StepRes where
  | next (s : CrawlState)
  | done (s : CrawlState) (o : CrawlOutcome)
deriving Repr, DecidableEq

/-- State carried by a `StepRes`. -/
def resState : StepRes → CrawlState
  | .next s => s
  | .done s _ => s

/-- Body of one loop iteration after the pop (source lines 279-305):
skip already-visited entries, run `scrape_webpage`, enqueue children when
`depth < max_depth`, and checkpoint on the cadence.  A propagating
`KeyboardInterrupt` is caught by the controller (source lines 311-314)
which saves synchronously and exits. -/
def crawl_handle (cfg : Config) (oracle : Nat → FetchResult) (start : String)
    (s1 : CrawlState) (url : String) (depth : Nat) : StepRes :=
  if url ∈ s1.visited then .next s1
  else
    match scrape_webpage cfg oracle s1 url depth with
    | .interrupted s2 => .done (saveNow start s2) .interrupted
    | .ok _ links s2 =>
      .next (maybe_save start (after_enqueue cfg s2 links depth))

/-- One evaluation of the loop header `while queue and len(visited) <
max_pages` plus, when it passes, one iteration of the body.  Exiting the
loop runs the final `save_progress` (source line 308). -/
def crawl_step (cfg : Config) (oracle : Nat → FetchResult) (start : String)
    (s : CrawlState) : StepRes :=
  match s.queue with
  | [] => .done (saveNow start s) .completed
  | (url, depth) :: rest =>
    if s.visited.length ≥ cfg.maxPages then .done (saveNow start s) .completed
    else crawl_handle cfg oracle start { s with queue := rest } url depth

/-- Fuel-indexed iteration of `crawl_step`. -/
def crawl_loop (cfg : Config) (oracle : Nat → FetchResult) (start : String) :
    Nat → CrawlState → CrawlState × CrawlOutcome
  | 0, s => (s, .fuelOut)
  | n + 1, s =>
    match crawl_step cfg oracle start s with
    | .next s1 => crawl_loop cfg oracle start n s1
    | .done s1 o => (s1, o)

/-- `crawl(start_url)` (source lines 266-318): restore the visited set from
the checkpoint when its stored start URL matches (otherwise clear it), seed
the frontier with `(start_url, 0)`, and iterate. -/
def crawl (cfg : Config) (oracle : Nat → FetchResult) (fuel : Nat)
    (file : Option ProgressData) (start : String) : CrawlState × CrawlOutcome :=
  crawl_loop cfg oracle start fuel
    { visited := (load_progress file start).getD []
      queue := [(start, 0)]
      checkpoint := file
      fetchCount := 0
      fetched := [] }

/-! ## Constructor file-system effects (`WebScraper.__init__`, source lines 20-57) -/

/-- A flat model of the file system: the set of existing directories and
the set of existing files, each identified by its joined path. -/
structure FileSystem where
  dirs : List String
  files : List String
deriving Repr, DecidableEq

/-- The directory-creation tail of the constructor (source lines 50-57):
`os.makedirs(save_directory)` when missing, then the `_progress`
subdirectory. -/
def initDirs (fs : FileSystem) (saveDir : String) : FileSystem :=
  let fs1 := if saveDir ∈ fs.dirs then fs else { fs with dirs := fs.dirs ++ [saveDir] }
  let pd := saveDir ++ "/_progress"
  if pd ∈ fs1.dirs then fs1 else { fs1 with dirs := fs1.dirs ++ [pd] }

/-- `WebScraper.__init__` file-system effects in source order (lines
38-57): first the key file `save_directory/.key` is read, or generated and
written — a write into a directory that does not exist raises
`FileNotFoundError` (modelled as `.error` carrying the untouched file
system) — and only afterwards are the missing directories created. -/
def initScraper (fs : FileSystem) (saveDir : String) : Except FileSystem FileSystem :=
  if (saveDir ++ "/.key") ∈ fs.files then .ok (initDirs fs saveDir)
  else if saveDir ∈ fs.dirs then
    .ok (initDirs { fs with files := fs.files ++ [saveDir ++ "/.key"] } saveDir)
  else .error fs

/-! ## Spec-side predicate and concrete oracles used by the claims -/

/-- Formalization of the spec's scope rule, taken from its words: the
candidate's path is contained within, or extends, the base's directory
path — a prefix match on the base's path directory component.  This is the
spec's description, for comparison with `is_valid_url`. -/
def spec_path_within_base (candidate base : String) : Bool :=
  strStarts (urlparse candidate).path (dropLastSegment (urlparse base).path)

/-- Oracle describing a run in which page `p` links to `a` and `b`, both of
which link to `c`, and every fetch of `c` fails: `c` enters the frontier
twice via different parents. -/
def oracleA : Nat → FetchResult
  | 0 => .success "t" ["http://h/display/a", "http://h/display/b"]
  | 1 => .success "t" ["http://h/display/c"]
  | 2 => .success "t" ["http://h/display/c"]
  | _ => .failure

/-- Oracle describing a run in which the start page links to one in-scope
page whose own fetch fails. -/
def oracleB : Nat → FetchResult
  | 0 => .success "t" ["http://h/display/a"]
  | _ => .failure

/-! ## Invariant predicates on crawl states -/

/-- Every dispatched fetch respected the depth budget. -/
def depthInv (cfg : Config) (s : CrawlState) : Prop :=
  ∀ e ∈ s.fetched, e.depth ≤ cfg.maxDepth

/-- Every queued URL and every dispatched URL carries the authority of the
start URL. -/
def netlocInv (start : String) (s : CrawlState) : Prop :=
  (∀ p ∈ s.queue, (urlparse p.1).netloc = (urlparse start).netloc) ∧
  (∀ e ∈ s.fetched, (urlparse e.url).netloc = (urlparse start).netloc)

/-- Successful fetches are recorded in the visited set, and no URL is ever
dispatched again after a successful fetch of it. -/
def noRefetchInv (s : CrawlState) : Prop :=
  (∀ e ∈ s.fetched, e.succeeded = true → e.url ∈ s.visited) ∧
  s.fetched.Pairwise (fun a b => a.url = b.url → a.succeeded = false)

/-! ## Projection helpers -/

@[simp]
theorem stateOf_ok (c : Option String) (links : List String) (s : CrawlState) :
    stateOf (.ok c links s) = s := rfl

@[simp]
theorem stateOf_interrupted (s : CrawlState) :
    stateOf (.interrupted s) = s := rfl

@[simp]
theorem resState_next (s : CrawlState) : resState (.next s) = s := rfl

@[simp]
theorem resState_done (s : CrawlState) (o : CrawlOutcome) : resState (.done s o) = s := rfl

@[simp]
theorem saveNow_visited (start : String) (s : CrawlState) :
    (saveNow start s).visited = s.visited := rfl

@[simp]
theorem saveNow_queue (start : String) (s : CrawlState) :
    (saveNow start s).queue = s.queue := rfl

@[simp]
theorem saveNow_fetched (start : String) (s : CrawlState) :
    (saveNow start s).fetched = s.fetched := rfl

@[simp]
theorem maybe_save_visited (start : String) (s : CrawlState) :
    (maybe_save start s).visited = s.visited := by
  unfold maybe_save; split <;> rfl

@[simp]
theorem maybe_save_queue (start : String) (s : CrawlState) :
    (maybe_save start s).queue = s.queue := by
  unfold maybe_save; split <;> rfl

@[simp]
theorem maybe_save_fetched (start : String) (s : CrawlState) :
    (maybe_save start s).fetched = s.fetched := by
  unfold maybe_save; split <;> rfl

@[simp]
theorem after_enqueue_visited (cfg : Config) (s : CrawlState) (links : List String) (d : Nat) :
    (after_enqueue cfg s links d).visited = s.visited := by
  unfold after_enqueue enqueue_links; split <;> rfl

@[simp]
theorem after_enqueue_fetched (cfg : Config) (s : CrawlState) (links : List String) (d : Nat) :
    (after_enqueue cfg s links d).fetched = s.fetched := by
  unfold after_enqueue enqueue_links; split <;> rfl

theorem after_enqueue_queue_mem {cfg : Config} {s : CrawlState} {links : List String}
    {d : Nat} {p : String × Nat} (hp : p ∈ (after_enqueue cfg s links d).queue) :
    p ∈ s.queue ∨ (p.1 ∈ links ∧ p.2 = d + 1) := by
  unfold after_enqueue enqueue_links at hp
  split at hp
  · rcases List.mem_append.mp hp with h | h
    · exact Or.inl h
    · rcases List.mem_map.mp h with ⟨l, hl, hpl⟩
      refine Or.inr ?_
      rw [← hpl]
      exact ⟨(List.mem_filter.mp hl).1, rfl⟩
  · exact Or.inl hp

/-! ## Characterization of `scrape_webpage` -/

/-- Every call to `scrape_webpage` either returns the unchanged state with
an empty result (already-visited URL, or budget exceeded), or dispatches a
fetch after both guards pass, with the three possible oracle outcomes. -/
theorem scrape_rcases (cfg : Config) (oracle : Nat → FetchResult) (s : CrawlState)
    (url : String) (depth : Nat) :
    scrape_webpage cfg oracle s url depth = .ok none [] s ∨
    (url ∉ s.visited ∧ depth ≤ cfg.maxDepth ∧ s.visited.length < cfg.maxPages ∧
      (scrape_webpage cfg oracle s url depth = .interrupted
          { s with fetchCount := s.fetchCount + 1,
                   fetched := s.fetched ++ [⟨url, depth, false⟩] } ∨
       scrape_webpage cfg oracle s url depth = .ok none []
          { s with fetchCount := s.fetchCount + 1,
                   fetched := s.fetched ++ [⟨url, depth, false⟩] } ∨
       (∃ c hrefs, oracle s.fetchCount = .success c hrefs ∧
         scrape_webpage cfg oracle s url depth = .ok (some c) (extract_links hrefs url)
            { s with fetchCount := s.fetchCount + 1,
                     fetched := s.fetched ++ [⟨url, depth, true⟩],
                     visited := s.visited ++ [url] }))) := by
  by_cases h1 : url ∈ s.visited
  · left; unfold scrape_webpage; rw [if_pos h1]
  · by_cases h2 : depth > cfg.maxDepth ∨ s.visited.length ≥ cfg.maxPages
    · left; unfold scrape_webpage; rw [if_neg h1, if_pos h2]
    · right
      refine ⟨h1, by omega, by omega, ?_⟩
      cases ho : oracle s.fetchCount with
      | interrupt =>
        left; unfold scrape_webpage; rw [if_neg h1, if_neg h2, ho]
      | failure =>
        right; left; unfold scrape_webpage; rw [if_neg h1, if_neg h2, ho]
      | success c hrefs =>
        right; right
        exact ⟨c, hrefs, rfl, by unfold scrape_webpage; rw [if_neg h1, if_neg h2, ho]⟩

/-! ## Generic loop reasoning -/

/-- A predicate preserved by every loop step holds for the state the loop
returns, whatever the fuel. -/
theorem crawl_loop_inv (cfg : Config) (oracle : Nat → FetchResult) (start : String)
    (P : CrawlState → Prop)
    (hstep : ∀ s, P s → P (resState (crawl_step cfg oracle start s))) :
    ∀ (n : Nat) (s : CrawlState), P s → P (crawl_loop cfg oracle start n s).1 := by
  intro n
  induction n with
  | zero => intro s hs; exact hs
  | succ n ih =>
    intro s hs
    have h := hstep s hs
    cases hcs : crawl_step cfg oracle start s with
    | next s1 =>
      rw [hcs] at h
      have h1 : (crawl_loop cfg oracle start (n + 1) s).1 = (crawl_loop cfg oracle start n s1).1 := by
        simp only [crawl_loop, hcs]
      rw [h1]
      exact ih s1 h
    | done s1 o =>
      rw [hcs] at h
      have h1 : (crawl_loop cfg oracle start (n + 1) s).1 = s1 := by
        simp only [crawl_loop, hcs]
      rw [h1]
      exact h

/-- Whenever a loop step finishes the crawl, the final state's checkpoint
was just written from its visited set (the final `save_progress` on normal
completion, and the `except KeyboardInterrupt` handler's save). -/
theorem step_done_checkpoint (cfg : Config) (oracle : Nat → FetchResult) (start : String) :
    ∀ (s s' : CrawlState) (o : CrawlOutcome),
      crawl_step cfg oracle start s = .done s' o →
      s'.checkpoint = some ⟨start, s'.visited, 0⟩ := by
  intro s s' o h
  unfold crawl_step at h
  cases hq : s.queue with
  | nil =>
    simp only [hq] at h
    injection h with h1 h2
    subst h1
    rfl
  | cons hd rest =>
    obtain ⟨url, depth⟩ := hd
    simp only [hq] at h
    by_cases hb : s.visited.length ≥ cfg.maxPages
    · rw [if_pos hb] at h
      injection h with h1 h2
      subst h1
      rfl
    · rw [if_neg hb] at h
      unfold crawl_handle at h
      by_cases hv : url ∈ ({ s with queue := rest } : CrawlState).visited
      · rw [if_pos hv] at h
        exact StepRes.noConfusion h
      · rw [if_neg hv] at h
        cases hscr : scrape_webpage cfg oracle { s with queue := rest } url depth with
        | interrupted s2 =>
          rw [hscr] at h
          injection h with h1 h2
          subst h1
          rfl
        | ok c links s2 =>
          rw [hscr] at h
          exact StepRes.noConfusion h

/-- Whenever the loop terminates other than by fuel exhaustion, the final
state's checkpoint holds exactly its visited set. -/
theorem loop_done_checkpoint (cfg : Config) (oracle : Nat → FetchResult) (start : String) :
    ∀ (n : Nat) (s s' : CrawlState) (o : CrawlOutcome),
      crawl_loop cfg oracle start n s = (s', o) → o ≠ .fuelOut →
      s'.checkpoint = some ⟨start, s'.visited, 0⟩ := by
  intro n
  induction n with
  | zero =>
    intro s s' o h hne
    simp only [crawl_loop] at h
    injection h with h1 h2
    exact absurd h2.symm hne
  | succ n ih =>
    intro s s' o h hne
    cases hcs : crawl_step cfg oracle start s with
    | next s1 =>
      simp only [crawl_loop, hcs] at h
      exact ih s1 s' o h hne
    | done s1 o1 =>
      simp only [crawl_loop, hcs] at h
      injection h with h1 h2
      rw [← h1]
      exact step_done_checkpoint cfg oracle start s s1 o1 hcs

/-- Every loop step either finishes the crawl after a final save, or pops
the head frontier entry and runs the iteration body on it. -/
theorem step_rcases (cfg : Config) (oracle : Nat → FetchResult) (start : String)
    (s : CrawlState) :
    (∃ o, crawl_step cfg oracle start s = .done (saveNow start s) o) ∨
    (∃ url depth rest, s.queue = (url, depth) :: rest ∧
      crawl_step cfg oracle start s =
        crawl_handle cfg oracle start { s with queue := rest } url depth) := by
  unfold crawl_step
  cases hq : s.queue with
  | nil => exact Or.inl ⟨.completed, rfl⟩
  | cons hd rest =>
    obtain ⟨url, depth⟩ := hd
    by_cases hb : s.visited.length ≥ cfg.maxPages
    · exact Or.inl ⟨.completed, if_pos hb⟩
    · exact Or.inr ⟨url, depth, rest, rfl, if_neg hb⟩

/-! ## Depth budget invariant (claim about `depth <= max_depth`) -/

theorem fetched_all_append {l : List FetchEvent} {e' : FetchEvent} {m : Nat}
    (h : ∀ e ∈ l, e.depth ≤ m) (h' : e'.depth ≤ m) :
    ∀ e ∈ l ++ [e'], e.depth ≤ m := by
  intro e he
  rcases List.mem_append.mp he with h1 | h1
  · exact h e h1
  · rw [List.mem_singleton] at h1
    subst h1
    exact h'

@[simp]
theorem depthInv_maybe_save (cfg : Config) (start : String) (s : CrawlState) :
    depthInv cfg (maybe_save start s) ↔ depthInv cfg s := by
  unfold depthInv
  rw [maybe_save_fetched]

@[simp]
theorem depthInv_after_enqueue (cfg cfg' : Config) (s : CrawlState)
    (links : List String) (d : Nat) :
    depthInv cfg (after_enqueue cfg' s links d) ↔ depthInv cfg s := by
  unfold depthInv
  rw [after_enqueue_fetched]

theorem handle_depthInv (cfg : Config) (oracle : Nat → FetchResult) (start : String)
    (s1 : CrawlState) (url : String) (depth : Nat) (hP : depthInv cfg s1) :
    depthInv cfg (resState (crawl_handle cfg oracle start s1 url depth)) := by
  unfold crawl_handle
  by_cases hv : url ∈ s1.visited
  · rw [if_pos hv]; exact hP
  · rw [if_neg hv]
    rcases scrape_rcases cfg oracle s1 url depth with
      heq | ⟨hnv, hd, hp, heq | heq | ⟨c, hrefs, ho, heq⟩⟩
    · simp only [heq, resState_next, depthInv_maybe_save, depthInv_after_enqueue]
      exact hP
    · simp only [heq, resState_done]
      exact fetched_all_append hP hd
    · simp only [heq, resState_next, depthInv_maybe_save, depthInv_after_enqueue]
      exact fetched_all_append hP hd
    · simp only [heq, resState_next, depthInv_maybe_save, depthInv_after_enqueue]
      exact fetched_all_append hP hd

theorem step_depthInv (cfg : Config) (oracle : Nat → FetchResult) (start : String) :
    ∀ s, depthInv cfg s → depthInv cfg (resState (crawl_step cfg oracle start s)) := by
  intro s hP
  rcases step_rcases cfg oracle start s with ⟨o, heq⟩ | ⟨url, depth, rest, hq, heq⟩ <;> rw [heq]
  · exact hP
  · exact handle_depthInv cfg oracle start { s with queue := rest } url depth hP

/-- Claim C8: for every frontier entry whose URL is ever passed to the
fetch step, `depth <= max_depth`: children are enqueued at `depth + 1` only
when the parent's depth is strictly below `max_depth` (source lines
293-300), and the per-page handler refuses entries whose depth exceeds
`max_depth` (source lines 206-210), so every dispatched fetch respects the
depth budget. -/
theorem crawl_fetched_depth_le :
    ∀ (cfg : Config) (oracle : Nat → FetchResult) (fuel : Nat)
      (file : Option ProgressData) (start : String),
      ∀ e ∈ (crawl cfg oracle fuel file start).1.fetched, e.depth ≤ cfg.maxDepth := by
  intro cfg oracle fuel file start
  unfold crawl
  exact crawl_loop_inv cfg oracle start (depthInv cfg) (step_depthInv cfg oracle start)
    fuel _ (by intro e he; exact absurd he (List.not_mem_nil e))

/-- Witness for `crawl_fetched_depth_le`: the start page of a one-page run
is fetched at depth `0 <= 2`. -/
theorem crawl_fetched_depth_le_witness :
    (⟨"s", 0, true⟩ : FetchEvent).depth ≤ (⟨2, 50⟩ : Config).maxDepth :=
  crawl_fetched_depth_le ⟨2, 50⟩ (fun _ => FetchResult.success "t" []) 5 none "s"
    ⟨"s", 0, true⟩ (by decide)

/-! ## Page budget invariant (claim about `len(visited_set) <= max_pages`) -/

theorem scrape_visited_cases (cfg : Config) (oracle : Nat → FetchResult) (s : CrawlState)
    (url : String) (depth : Nat) :
    (stateOf (scrape_webpage cfg oracle s url depth)).visited = s.visited ∨
    (s.visited.length < cfg.maxPages ∧
      (stateOf (scrape_webpage cfg oracle s url depth)).visited = s.visited ++ [url]) := by
  rcases scrape_rcases cfg oracle s url depth with
    heq | ⟨hnv, hd, hp, heq | heq | ⟨c, hrefs, ho, heq⟩⟩ <;> rw [heq]
  · exact Or.inl rfl
  · exact Or.inl rfl
  · exact Or.inl rfl
  · exact Or.inr ⟨hp, rfl⟩

theorem handle_pages (cfg : Config) (oracle : Nat → FetchResult) (start : String)
    (s1 : CrawlState) (url : String) (depth : Nat) (N : Nat)
    (hN : cfg.maxPages ≤ N) (hP : s1.visited.length ≤ N) :
    (resState (crawl_handle cfg oracle start s1 url depth)).visited.length ≤ N := by
  unfold crawl_handle
  by_cases hv : url ∈ s1.visited
  · rw [if_pos hv]; exact hP
  · rw [if_neg hv]
    cases hscr : scrape_webpage cfg oracle s1 url depth with
    | interrupted s2 =>
      have h := scrape_visited_cases cfg oracle s1 url depth
      rw [hscr] at h
      simp only [stateOf_interrupted] at h
      simp only [resState_done, saveNow_visited]
      rcases h with h | ⟨hp, h⟩ <;> rw [h]
      · exact hP
      · rw [List.length_append]
        simpa using Nat.le_trans hp hN
    | ok c links s2 =>
      have h := scrape_visited_cases cfg oracle s1 url depth
      rw [hscr] at h
      simp only [stateOf_ok] at h
      simp only [resState_next, maybe_save_visited, after_enqueue_visited]
      rcases h with h | ⟨hp, h⟩ <;> rw [h]
      · exact hP
      · rw [List.length_append]
        simpa using Nat.le_trans hp hN

theorem step_pages (cfg : Config) (oracle : Nat → FetchResult) (start : String) (N : Nat)
    (hN : cfg.maxPages ≤ N) :
    ∀ s : CrawlState, s.visited.length ≤ N →
      (resState (crawl_step cfg oracle start s)).visited.length ≤ N := by
  intro s hP
  rcases step_rcases cfg oracle start s with ⟨o, heq⟩ | ⟨url, depth, rest, hq, heq⟩ <;> rw [heq]
  · exact hP
  · exact handle_pages cfg oracle start { s with queue := rest } url depth N hN hP

/-- Amended claim C3: at any point where `crawl` stops, the visited set has
at most `max(max_pages, n₀)` elements, where `n₀` is the size of the
visited set restored from the checkpoint (`0` when no checkpoint is
honored).  The loop guard (source line 278) and the budget guard inside
`scrape_webpage` (source line 209) bound growth by the budget, but nothing
caps an oversized restored checkpoint. -/
theorem crawl_visited_le_max :
    ∀ (cfg : Config) (oracle : Nat → FetchResult) (fuel : Nat)
      (file : Option ProgressData) (start : String),
      (crawl cfg oracle fuel file start).1.visited.length ≤
        max cfg.maxPages ((load_progress file start).getD []).length := by
  intro cfg oracle fuel file start
  unfold crawl
  exact crawl_loop_inv cfg oracle start
    (fun s => s.visited.length ≤ max cfg.maxPages ((load_progress file start).getD []).length)
    (step_pages cfg oracle start _ (Nat.le_max_left _ _))
    fuel _ (Nat.le_max_right _ _)

/-- Counterexample to claim C3 as stated: with `max_pages = 1` and a
checkpoint holding two visited URLs for the same start URL, the crawl
terminates normally (outcome `completed`) with a visited set of size 2,
violating `len(visited_set) <= max_pages`. -/
theorem crawl_restored_exceeds_budget :
    (crawl ⟨2, 1⟩ (fun _ => FetchResult.failure) 5 (some ⟨"s", ["a", "b"], 7⟩) "s").2 =
      CrawlOutcome.completed ∧
    ¬ ((crawl ⟨2, 1⟩ (fun _ => FetchResult.failure) 5
        (some ⟨"s", ["a", "b"], 7⟩) "s").1.visited.length ≤ 1) := by
  decide

/-! ## Authority invariant (claim about the netloc of fetched URLs) -/

/-- A URL the scope filter admits has the base URL's authority: the first
check of `is_valid_url` (source line 109) rejects any other netloc. -/
theorem is_valid_url_netloc {u b : String} (h : is_valid_url u b = true) :
    (urlparse u).netloc = (urlparse b).netloc := by
  by_contra hne
  unfold is_valid_url at h
  rw [if_pos hne] at h
  exact Bool.false_ne_true h

/-- Every link returned by `extract_links` passed the scope filter against
the page it was discovered on. -/
theorem extract_links_valid {l : String} {hrefs : List String} {b : String}
    (h : l ∈ extract_links hrefs b) : is_valid_url l b = true := by
  unfold extract_links at h
  rw [List.mem_dedup] at h
  exact (List.mem_filter.mp h).2

theorem handle_netlocInv (cfg : Config) (oracle : Nat → FetchResult) (start : String)
    (s1 : CrawlState) (url : String) (depth : Nat)
    (hurl : (urlparse url).netloc = (urlparse start).netloc)
    (hP : netlocInv start s1) :
    netlocInv start (resState (crawl_handle cfg oracle start s1 url depth)) := by
  unfold crawl_handle
  by_cases hv : url ∈ s1.visited
  · rw [if_pos hv]; exact hP
  · rw [if_neg hv]
    rcases scrape_rcases cfg oracle s1 url depth with
      heq | ⟨hnv, hd, hp, heq | heq | ⟨c, hrefs, ho, heq⟩⟩
    · simp only [heq, resState_next]
      constructor
      · intro p hp2
        rw [maybe_save_queue] at hp2
        rcases after_enqueue_queue_mem hp2 with h1 | ⟨h1, _⟩
        · exact hP.1 p h1
        · exact absurd h1 (List.not_mem_nil p.1)
      · intro e he
        rw [maybe_save_fetched, after_enqueue_fetched] at he
        exact hP.2 e he
    · simp only [heq, resState_done]
      constructor
      · intro p hp2
        rw [saveNow_queue] at hp2
        exact hP.1 p hp2
      · intro e he
        rw [saveNow_fetched] at he
        rcases List.mem_append.mp he with h1 | h1
        · exact hP.2 e h1
        · rw [List.mem_singleton] at h1
          subst h1
          exact hurl
    · simp only [heq, resState_next]
      constructor
      · intro p hp2
        rw [maybe_save_queue] at hp2
        rcases after_enqueue_queue_mem hp2 with h1 | ⟨h1, _⟩
        · exact hP.1 p h1
        · exact absurd h1 (List.not_mem_nil p.1)
      · intro e he
        rw [maybe_save_fetched, after_enqueue_fetched] at he
        rcases List.mem_append.mp he with h1 | h1
        · exact hP.2 e h1
        · rw [List.mem_singleton] at h1
          subst h1
          exact hurl
    · simp only [heq, resState_next]
      constructor
      · intro p hp2
        rw [maybe_save_queue] at hp2
        rcases after_enqueue_queue_mem hp2 with h1 | ⟨h1, _⟩
        · exact hP.1 p h1
        · exact (is_valid_url_netloc (extract_links_valid h1)).trans hurl
      · intro e he
        rw [maybe_save_fetched, after_enqueue_fetched] at he
        rcases List.mem_append.mp he with h1 | h1
        · exact hP.2 e h1
        · rw [List.mem_singleton] at h1
          subst h1
          exact hurl

theorem step_netlocInv (cfg : Config) (oracle : Nat → FetchResult) (start : String) :
    ∀ s, netlocInv start s → netlocInv start (resState (crawl_step cfg oracle start s)) := by
  intro s hP
  rcases step_rcases cfg oracle start s with ⟨o, heq⟩ | ⟨url, depth, rest, hq, heq⟩ <;> rw [heq]
  · exact hP
  · refine handle_netlocInv cfg oracle start { s with queue := rest } url depth ?_ ⟨?_, hP.2⟩
    · exact hP.1 (url, depth) (by rw [hq]; exact List.mem_cons_self _ _)
    · intro p hp2
      exact hP.1 p (by rw [hq]; exact List.mem_cons_of_mem _ hp2)

/-- Claim C9: every URL ever passed to the fetch step carries the start
URL's authority.  The filter compares each discovered link's netloc against
the URL of the page that discovered it (source lines 104-111, 254), and the
equality chains inductively back to the start URL. -/
theorem crawl_fetched_same_netloc :
    ∀ (cfg : Config) (oracle : Nat → FetchResult) (fuel : Nat)
      (file : Option ProgressData) (start : String),
      ∀ e ∈ (crawl cfg oracle fuel file start).1.fetched,
        (urlparse e.url).netloc = (urlparse start).netloc := by
  intro cfg oracle fuel file start
  unfold crawl
  have h := crawl_loop_inv cfg oracle start (netlocInv start) (step_netlocInv cfg oracle start)
    fuel
    { visited := (load_progress file start).getD []
      queue := [(start, 0)]
      checkpoint := file
      fetchCount := 0
      fetched := [] }
    ⟨by
        intro p hp
        rw [List.mem_singleton] at hp
        subst hp
        rfl,
      by intro e he; exact absurd he (List.not_mem_nil e)⟩
  exact h.2

/-- Witness for `crawl_fetched_same_netloc`: in a two-page run, the link
fetched at depth 1 has the start URL's authority. -/
theorem crawl_fetched_same_netloc_witness :
    (urlparse (⟨"http://h/display/a", 1, false⟩ : FetchEvent).url).netloc =
      (urlparse "http://h/display/p").netloc :=
  crawl_fetched_same_netloc ⟨2, 50⟩ oracleB 6 none "http://h/display/p"
    ⟨"http://h/display/a", 1, false⟩ (by decide)

/-! ## Refetch discipline (claim about double fetches of one URL) -/

theorem noRefetch_extend_failed {s t : CrawlState} {url : String} {depth : Nat}
    (hvis : t.visited = s.visited)
    (hfet : t.fetched = s.fetched ++ [⟨url, depth, false⟩])
    (h : noRefetchInv s) (hnv : url ∉ s.visited) :
    noRefetchInv t := by
  constructor
  · intro e he hsucc
    rw [hfet] at he
    rw [hvis]
    rcases List.mem_append.mp he with h1 | h1
    · exact h.1 e h1 hsucc
    · rw [List.mem_singleton] at h1
      subst h1
      simp at hsucc
  · rw [hfet, List.pairwise_append]
    refine ⟨h.2, List.pairwise_singleton _ _, ?_⟩
    intro a ha b hb
    rw [List.mem_singleton] at hb
    subst hb
    intro hab
    cases hs : a.succeeded with
    | false => rfl
    | true =>
      have hmem := h.1 a ha hs
      rw [hab] at hmem
      exact absurd hmem hnv

theorem noRefetch_extend_ok {s t : CrawlState} {url : String} {depth : Nat}
    (hvis : t.visited = s.visited ++ [url])
    (hfet : t.fetched = s.fetched ++ [⟨url, depth, true⟩])
    (h : noRefetchInv s) (hnv : url ∉ s.visited) :
    noRefetchInv t := by
  constructor
  · intro e he hsucc
    rw [hfet] at he
    rw [hvis]
    rcases List.mem_append.mp he with h1 | h1
    · exact List.mem_append.mpr (Or.inl (h.1 e h1 hsucc))
    · rw [List.mem_singleton] at h1
      subst h1
      exact List.mem_append.mpr (Or.inr (List.mem_singleton.mpr rfl))
  · rw [hfet, List.pairwise_append]
    refine ⟨h.2, List.pairwise_singleton _ _, ?_⟩
    intro a ha b hb
    rw [List.mem_singleton] at hb
    subst hb
    intro hab
    cases hs : a.succeeded with
    | false => rfl
    | true =>
      have hmem := h.1 a ha hs
      rw [hab] at hmem
      exact absurd hmem hnv
@[simp]
theorem noRefetch_maybe_save (start : String) (s : CrawlState) :
    noRefetchInv (maybe_save start s) ↔ noRefetchInv s := by
  unfold noRefetchInv
  rw [maybe_save_fetched, maybe_save_visited]

@[simp]
theorem noRefetch_after_enqueue (cfg : Config) (s : CrawlState)
    (links : List String) (d : Nat) :
    noRefetchInv (after_enqueue cfg s links d) ↔ noRefetchInv s := by
  unfold noRefetchInv
  rw [after_enqueue_fetched, after_enqueue_visited]

theorem handle_noRefetch (cfg : Config) (oracle : Nat → FetchResult) (start : String)
    (s1 : CrawlState) (url : String) (depth : Nat) (hP : noRefetchInv s1) :
    noRefetchInv (resState (crawl_handle cfg oracle start s1 url depth)) := by
  unfold crawl_handle
  by_cases hv : url ∈ s1.visited
  · rw [if_pos hv]; exact hP
  · rw [if_neg hv]
    rcases scrape_rcases cfg oracle s1 url depth with
      heq | ⟨hnv, hd, hp, heq | heq | ⟨c, hrefs, ho, heq⟩⟩
    · simp only [heq, resState_next, noRefetch_maybe_save, noRefetch_after_enqueue]
      exact hP
    · simp only [heq, resState_done]
      exact @noRefetch_extend_failed s1 _ url depth rfl rfl hP hnv
    · simp only [heq, resState_next, noRefetch_maybe_save, noRefetch_after_enqueue]
      exact @noRefetch_extend_failed s1 _ url depth rfl rfl hP hnv
    · simp only [heq, resState_next, noRefetch_maybe_save, noRefetch_after_enqueue]
      exact @noRefetch_extend_ok s1 _ url depth rfl rfl hP hnv

theorem step_noRefetch (cfg : Config) (oracle : Nat → FetchResult) (start : String) :
    ∀ s, noRefetchInv s → noRefetchInv (resState (crawl_step cfg oracle start s)) := by
  intro s hP
  rcases step_rcases cfg oracle start s with ⟨o, heq⟩ | ⟨url, depth, rest, hq, heq⟩ <;> rw [heq]
  · exact hP
  · exact handle_noRefetch cfg oracle start { s with queue := rest } url depth hP

/-- Amended claim C1: visited-set membership is checked before every fetch
dispatch, so a URL whose fetch succeeded (and was therefore added to the
Visited Set, source line 259) is never passed to the fetch step again; in
any pair of dispatches of the same URL within one run, the earlier dispatch
failed. -/
theorem crawl_no_refetch_after_success :
    ∀ (cfg : Config) (oracle : Nat → FetchResult) (fuel : Nat)
      (file : Option ProgressData) (start : String),
      ((crawl cfg oracle fuel file start).1.fetched).Pairwise
        (fun a b => a.url = b.url → a.succeeded = false) := by
  intro cfg oracle fuel file start
  unfold crawl
  have h := crawl_loop_inv cfg oracle start noRefetchInv (step_noRefetch cfg oracle start)
    fuel
    { visited := (load_progress file start).getD []
      queue := [(start, 0)]
      checkpoint := file
      fetchCount := 0
      fetched := [] }
    ⟨by intro e he; exact absurd he (List.not_mem_nil e), List.Pairwise.nil⟩
  exact h.2

/-- Counterexample to claim C1 as stated: with two parents `a` and `b` both
linking to `c` and every fetch of `c` failing, `c` is dequeued twice, is
absent from the visited set both times (a failed fetch never reaches
`visited_urls.add`), and is therefore passed to the fetch step twice within
a single run. -/
theorem crawl_refetches_failed_url :
    (crawl ⟨2, 50⟩ oracleA 10 none "http://h/display/p").1.fetched.map FetchEvent.url =
      ["http://h/display/p", "http://h/display/a", "http://h/display/b",
       "http://h/display/c", "http://h/display/c"] ∧
    ¬ ((crawl ⟨2, 50⟩ oracleA 10 none "http://h/display/p").1.fetched.map
        FetchEvent.url).Nodup := by
  decide

/-! ## Interrupt handling (claim about `KeyboardInterrupt`) -/

/-- Claim C7: a `KeyboardInterrupt` raised during the loop propagates out
of `scrape_webpage` (its handler catches only `Exception`, source lines
262-264) and is caught by the controller (source lines 311-314), which
performs a synchronous `save_progress` before the crawl exits: whenever a
run ends with outcome `interrupted`, the checkpoint on disk holds exactly
the final visited set. -/
theorem crawl_interrupt_saves :
    ∀ (cfg : Config) (oracle : Nat → FetchResult) (fuel : Nat)
      (file : Option ProgressData) (start : String),
      (crawl cfg oracle fuel file start).2 = CrawlOutcome.interrupted →
      (crawl cfg oracle fuel file start).1.checkpoint =
        some ⟨start, (crawl cfg oracle fuel file start).1.visited, 0⟩ := by
  intro cfg oracle fuel file start h
  unfold crawl at h ⊢
  refine loop_done_checkpoint cfg oracle start fuel _ _ _ rfl ?_
  rw [h]
  intro hc
  cases hc

/-- Witness for `crawl_interrupt_saves`: an interrupt arriving during the
very first fetch yields outcome `interrupted` with the checkpoint written
from the (empty) visited set. -/
theorem crawl_interrupt_saves_witness :
    (crawl ⟨2, 50⟩ (fun _ => FetchResult.interrupt) 5 none "s").2 =
        CrawlOutcome.interrupted ∧
    (crawl ⟨2, 50⟩ (fun _ => FetchResult.interrupt) 5 none "s").1.checkpoint =
      some ⟨"s", (crawl ⟨2, 50⟩ (fun _ => FetchResult.interrupt) 5 none "s").1.visited, 0⟩ :=
  ⟨by decide, crawl_interrupt_saves ⟨2, 50⟩ (fun _ => FetchResult.interrupt) 5 none "s" (by decide)⟩

/-! ## Failed-fetch handling (claim about visited marking on failure) -/

/-- Amended claim C2: when a dispatched fetch fails with an `Exception`
(network error, non-2xx status, parse error), the handler logs and returns
an empty result — no text, no links — but does NOT add the URL to the
Visited Set (`visited_urls.add` on source line 259 sits after the fetch in
the `try` block and is never reached on failure), so the URL can be fetched
again if another queue entry for it is dequeued later in the run. -/
theorem scrape_failure_empty_result :
    ∀ (cfg : Config) (oracle : Nat → FetchResult) (s : CrawlState)
      (url : String) (depth : Nat),
      url ∉ s.visited →
      depth ≤ cfg.maxDepth →
      s.visited.length < cfg.maxPages →
      oracle s.fetchCount = FetchResult.failure →
      scrape_webpage cfg oracle s url depth =
        ScrapeResult.ok none []
          { s with fetchCount := s.fetchCount + 1,
                   fetched := s.fetched ++ [⟨url, depth, false⟩] } ∧
      (stateOf (scrape_webpage cfg oracle s url depth)).visited = s.visited := by
  intro cfg oracle s url depth h1 h2 h3 ho
  have hng : ¬ (depth > cfg.maxDepth ∨ s.visited.length ≥ cfg.maxPages) := by omega
  have heq : scrape_webpage cfg oracle s url depth =
      ScrapeResult.ok none []
        { s with fetchCount := s.fetchCount + 1,
                 fetched := s.fetched ++ [⟨url, depth, false⟩] } := by
    unfold scrape_webpage
    rw [if_neg h1, if_neg hng, ho]
  exact ⟨heq, by rw [heq]; rfl⟩

/-- Witness for `scrape_failure_empty_result`: a failing fetch of `u` from
the empty state returns an empty result and leaves the visited set empty. -/
theorem scrape_failure_empty_result_witness :
    scrape_webpage ⟨2, 50⟩ (fun _ => FetchResult.failure) ⟨[], [], none, 0, []⟩ "u" 0 =
      ScrapeResult.ok none [] ⟨[], [], none, 1, [⟨"u", 0, false⟩]⟩ :=
  (scrape_failure_empty_result ⟨2, 50⟩ (fun _ => FetchResult.failure) ⟨[], [], none, 0, []⟩
    "u" 0 (by decide) (by decide) (by decide) rfl).1

/-- Counterexample to claim C2 as stated: in a run whose only fetch (of the
start URL) fails, the fetch was dispatched, yet the URL is NOT in the
Visited Set afterwards — the code does not mark failed URLs visited. -/
theorem crawl_failed_url_not_marked :
    (crawl ⟨2, 50⟩ (fun _ => FetchResult.failure) 5 none "s").1.fetched.map FetchEvent.url =
      ["s"] ∧
    "s" ∉ (crawl ⟨2, 50⟩ (fun _ => FetchResult.failure) 5 none "s").1.visited := by
  decide

/-! ## Scope-filter claims -/

/-- Amended claim C4: the scope filter performs no path containment check
against the base URL at all — the base's path plays no role in admission
(the filter reads only the base's authority, source line 109); scoping to
the document tree is instead approximated by requiring a documentation
space marker (`/display/` or `/spaces/`) in the candidate's own path
(source line 124).  Consequently the filter's verdict is unchanged under
any replacement of the base by another URL with the same authority. -/
theorem is_valid_url_ignores_base_path :
    ∀ (url b1 b2 : String),
      (urlparse b1).netloc = (urlparse b2).netloc →
      is_valid_url url b1 = is_valid_url url b2 := by
  intro url b1 b2 h
  unfold is_valid_url
  rw [h]

/-- Witness for `is_valid_url_ignores_base_path`: two bases with equal
authority but different paths give the same verdict. -/
theorem is_valid_url_ignores_base_path_witness :
    is_valid_url "http://h/display/x" "http://h/a" =
      is_valid_url "http://h/display/x" "http://h/b" :=
  is_valid_url_ignores_base_path "http://h/display/x" "http://h/a" "http://h/b" (by decide)

/-- Counterexample to claim C4 as stated: the candidate's path
`/display/z` lies outside the base's document tree (directory component
`/display/p/q/`), yet the filter admits it. -/
theorem is_valid_url_admits_outside_tree :
    is_valid_url "http://h/display/z" "http://h/display/p/q/r" = true ∧
    spec_path_within_base "http://h/display/z" "http://h/display/p/q/r" = false := by
  decide

/-- Claim C5, evaluated on the code: contrary to the spec, the filter
ADMITS `https://wiki.example.com/display/Proj/page?action=edit` against the
base `https://wiki.example.com/display/Proj` — the blocklist entry
`action=edit` is matched only against the path component (source lines
129-133), while here it occurs in the query, and no query-blocklist entry
(source lines 138-141) matches `action=edit`.  The companion URL
`.../display/Proj/page2` is admitted as the spec states. -/
theorem is_valid_url_edit_action_admitted :
    is_valid_url "https://wiki.example.com/display/Proj/page?action=edit"
        "https://wiki.example.com/display/Proj" = true ∧
    is_valid_url "https://wiki.example.com/display/Proj/page2"
        "https://wiki.example.com/display/Proj" = true := by
  decide

/-! ## Checkpoint round-trip (claim about `save_progress` / `load_progress`) -/

/-- Claim C6: saving a checkpoint for start URL `X` with visited set `V`
and loading with the same `X` restores exactly `V` (for a genuine set,
i.e. a duplicate-free list; in general `V.dedup`, matching Python's
`set(...)` on the stored list); loading with any `Y` that is not
string-equal to the stored start URL restores nothing, so the new crawl
starts with an empty Visited Set. -/
theorem progress_roundtrip :
    ∀ (X : String) (V : List String) (ts : Nat) (Y : String),
      load_progress (save_progress X V ts) X = some V.dedup ∧
      (V.Nodup → load_progress (save_progress X V ts) X = some V) ∧
      (Y ≠ X → load_progress (save_progress X V ts) Y = none) := by
  intro X V ts Y
  refine ⟨?_, ?_, ?_⟩
  · simp only [load_progress, save_progress]
    rfl
  · intro hnd
    simp only [load_progress, save_progress]
    show some V.dedup = some V
    rw [List.Nodup.dedup hnd]
  · intro hne
    simp only [load_progress, save_progress]
    rw [if_neg (fun h => hne h.symm)]

/-- Witness for `progress_roundtrip`: a two-element visited set survives
the round trip for the matching start URL and is withheld for another. -/
theorem progress_roundtrip_witness :
    load_progress (save_progress "a" ["u", "v"] 0) "a" = some ["u", "v"] ∧
    load_progress (save_progress "a" ["u", "v"] 0) "b" = none :=
  ⟨(progress_roundtrip "a" ["u", "v"] 0 "b").2.1 (by decide),
   (progress_roundtrip "a" ["u", "v"] 0 "b").2.2 (by decide)⟩

/-! ## Constructor ordering (claim about the `.key` write) -/

/-- Claim C10: constructing `WebScraper(save_directory, ...)` when
`save_directory` does not exist fails before the directory-creation step —
the symmetric key file `save_directory/.key` is written (source lines
38-46) before `os.makedirs` runs (source lines 50-57), and that write
raises when the parent directory is missing, leaving the file system
untouched; construction succeeds whenever `save_directory` already exists.
The hypothesis states file-system well-formedness: a file's parent
directory exists. -/
theorem initScraper_requires_directory :
    ∀ (fs : FileSystem) (d : String),
      ((d ++ "/.key") ∈ fs.files → d ∈ fs.dirs) →
      (d ∉ fs.dirs → initScraper fs d = .error fs) ∧
      (d ∈ fs.dirs → ∃ fs2, initScraper fs d = .ok fs2) := by
  intro fs d hwf
  constructor
  · intro hnd
    unfold initScraper
    rw [if_neg (fun hk => hnd (hwf hk)), if_neg hnd]
  · intro hd
    unfold initScraper
    by_cases hk : (d ++ "/.key") ∈ fs.files
    · rw [if_pos hk]
      exact ⟨_, rfl⟩
    · rw [if_neg hk, if_pos hd]
      exact ⟨_, rfl⟩

/-- Witness for `initScraper_requires_directory`: on an empty file system,
construction with a missing save directory raises before creating
anything. -/
theorem initScraper_requires_directory_witness :
    initScraper ⟨[], []⟩ "out" = .error ⟨[], []⟩ :=
  (initScraper_requires_directory ⟨[], []⟩ "out" (by decide)).1 (by decide)
